import Mathlib

/-!
Verification of the command/ledger engine of `budget_bot.py`.

Modelling conventions:
* Python floats are modelled by `PyFloat`: an exact rational together with
  the three non-finite values `inf`, `-inf` and `nan`.  Finite arithmetic is
  exact (no binary rounding); the non-finite propagation rules follow IEEE-754
  as Python implements them.
* Calendar dates (`%Y-%m-%d` strings in the source) are modelled as integer
  day numbers; `strptime`/`strftime` round-trips become the identity.  The
  `datetime.now()` timestamp written into a history entry is threaded through
  as an opaque `String` argument.
* `float(...)` string conversion is modelled by `parseFloat`, covering the
  ASCII grammar CPython accepts: optional surrounding whitespace, optional
  sign, `inf`/`infinity`/`nan` case-insensitively, and decimal literals with
  optional fraction, exponent and digit-group underscores.
-/

/-- Exact rational addition, written with `mkRat` so that the kernel can
evaluate it (Batteries marks `Rat.add` irreducible). -/
def qAdd (a b : ℚ) : ℚ := mkRat (a.num * b.den + b.num * a.den) (a.den * b.den)

/-- Exact rational multiplication, kernel-evaluable. -/
def qMul (a b : ℚ) : ℚ := mkRat (a.num * b.num) (a.den * b.den)

/-- Exact rational negation, kernel-evaluable. -/
def qNeg (a : ℚ) : ℚ := mkRat (-a.num) a.den

/-- Exact rational absolute value, kernel-evaluable. -/
def qAbs (a : ℚ) : ℚ := mkRat (a.num.natAbs : ℤ) a.den

/-- `m * 10 ^ e` as an exact rational, kernel-evaluable. -/
def qScale10 (m : ℕ) (e : ℤ) : ℚ :=
  match e with
  | .ofNat n => mkRat ((m * 10 ^ n : ℕ) : ℤ) 1
  | .negSucc n => mkRat (m : ℤ) (10 ^ (n + 1))

/-- A Python float value: a finite (exact) rational, `inf`, `-inf` or `nan`. -/
inductive PyFloat where
  | finite : ℚ → PyFloat
  | posInf : PyFloat
  | negInf : PyFloat
  | nan : PyFloat
deriving DecidableEq, Repr

namespace PyFloat

/-- Python `+` on floats (finite arithmetic exact). -/
def add : PyFloat → PyFloat → PyFloat
  | nan, _ => nan
  | _, nan => nan
  | posInf, negInf => nan
  | negInf, posInf => nan
  | posInf, _ => posInf
  | _, posInf => posInf
  | negInf, _ => negInf
  | _, negInf => negInf
  | finite a, finite b => finite (qAdd a b)

/-- Python unary `-` on floats (`-nan` compares and prints as `nan`). -/
def neg : PyFloat → PyFloat
  | nan => nan
  | posInf => negInf
  | negInf => posInf
  | finite a => finite (qNeg a)

/-- Python `*` on floats. -/
def mul : PyFloat → PyFloat → PyFloat
  | nan, _ => nan
  | _, nan => nan
  | posInf, posInf => posInf
  | posInf, negInf => negInf
  | negInf, posInf => negInf
  | negInf, negInf => posInf
  | posInf, finite b => if 0 < b then posInf else if b < 0 then negInf else nan
  | finite a, posInf => if 0 < a then posInf else if a < 0 then negInf else nan
  | negInf, finite b => if 0 < b then negInf else if b < 0 then posInf else nan
  | finite a, negInf => if 0 < a then negInf else if a < 0 then posInf else nan
  | finite a, finite b => finite (qMul a b)

/-- Python `abs` on floats. -/
def pyAbs : PyFloat → PyFloat
  | nan => nan
  | posInf => posInf
  | negInf => posInf
  | finite a => finite (qAbs a)

end PyFloat

/-- Round a rational to the nearest integer, ties to even
(the rounding used by Python float formatting). -/
def roundHalfEven (q : ℚ) : ℤ :=
  let f := Rat.floor q
  let r := qAdd q (qNeg (mkRat f 1))
  if r < mkRat 1 2 then f
  else if mkRat 1 2 < r then f + 1
  else if f % 2 = 0 then f else f + 1

/-- Render a nonnegative integer `n` (meant to lie in `[0, 100)`) as exactly
two decimal digits. -/
def twoDigits (n : ℤ) : String :=
  if n < 10 then "0" ++ toString n else toString n

/-- `f"{q:.2f}"` for a nonnegative rational: scale by 100, round half-even,
print integer and two fractional digits. -/
def format2Mag (q : ℚ) : String :=
  let n := roundHalfEven (qMul q 100)
  toString (Int.ediv n 100) ++ "." ++ twoDigits (Int.emod n 100)

/-- `f"{q:.2f}"` for a rational of either sign (Python formats a negative
value as the sign followed by the formatted magnitude). -/
def format2Rat (q : ℚ) : String :=
  if q < 0 then "-" ++ format2Mag (qNeg q) else format2Mag q

/-- `f"{x:.2f}"` on a Python float: `inf`, `-inf` and `nan` print as
themselves. -/
def pyFormat2 : PyFloat → String
  | .finite q => format2Rat q
  | .posInf => "inf"
  | .negInf => "-inf"
  | .nan => "nan"

/-- The whitespace characters Python `str.split`/`float` strip
(ASCII fragment). -/
def pyIsSpace (c : Char) : Bool :=
  c = ' ' ∨ c = '\t' ∨ c = '\n' ∨ c = '\r' ∨ c = '\x0b' ∨ c = '\x0c'

/-- Strip leading and trailing whitespace from a character list. -/
def pyStripChars (cs : List Char) : List Char :=
  ((cs.dropWhile pyIsSpace).reverse.dropWhile pyIsSpace).reverse

/-- ASCII lower-casing of a string (`str.lower` on the ASCII command
keywords the bot recognises). -/
def lowerAscii (s : String) : String :=
  String.mk (s.data.map Char.toLower)

/-- Python `str.split()` with no argument: split on runs of whitespace,
dropping empty fields. -/
def pySplitList (cs : List Char) : List String :=
  let p := cs.foldr
    (fun c acc =>
      if pyIsSpace c then
        if acc.1 = ([] : List Char) then ([], acc.2)
        else ([], String.mk acc.1 :: acc.2)
      else (c :: acc.1, acc.2))
    (([] : List Char), ([] : List String))
  if p.1 = ([] : List Char) then p.2 else String.mk p.1 :: p.2

/-- `text.split()` on a string. -/
def pySplit (s : String) : List String := pySplitList s.data

/-- `sep.join(xs)` for Python lists of strings. -/
def pyJoin (sep : String) : List String → String
  | [] => ""
  | [x] => x
  | x :: xs => x ++ sep ++ pyJoin sep xs

/-- Take the maximal leading run of digits and underscores, returning the run
and the unconsumed rest. -/
def duRun : List Char → List Char × List Char
  | [] => ([], [])
  | c :: rest =>
    if c.isDigit ∨ c = '_' then
      let p := duRun rest
      (c :: p.1, p.2)
    else ([], c :: rest)

/-- Does a run of digits and underscores match the CPython digit-group rule
`digit (underscore? digit)*` — i.e. it starts and ends with a digit and has
no two adjacent underscores? -/
def validDigitRun (r : List Char) : Bool :=
  (match r with
   | c :: _ => c.isDigit
   | [] => false)
  && (match r.getLast? with
      | some d => d.isDigit
      | none => false)
  && (r.zip r.tail).all (fun p => !(p.1 = '_' && p.2 = '_'))

/-- Read one digit group (at least one digit, single underscores allowed
between digits); `none` when the input does not start with a valid group.
Returns the digits (underscores removed) and the unconsumed rest. -/
def readDigitGroup (cs : List Char) : Option (List Char × List Char) :=
  let p := duRun cs
  if validDigitRun p.1 then some (p.1.filter Char.isDigit, p.2) else none

/-- Numeric value of a list of decimal digit characters. -/
def natOfDigits (ds : List Char) : ℕ :=
  ds.foldl (fun n c => 10 * n + (c.toNat - 48)) 0

/-- Parse the mantissa `digits [. digits]` of a float literal; at least one
digit must be present on one side of the point.  Returns the combined digit
value, the number of fractional digits, and the unconsumed rest. -/
def parseMantissa (cs : List Char) : Option (ℕ × ℕ × List Char) :=
  let ip := match readDigitGroup cs with
    | some (ds, r) => (ds, r)
    | none => (([] : List Char), cs)
  match ip.2 with
  | '.' :: rest2 =>
    (match readDigitGroup rest2 with
     | some (fds, r2) => some (natOfDigits (ip.1 ++ fds), fds.length, r2)
     | none => if ip.1 = ([] : List Char) then none
               else some (natOfDigits ip.1, 0, rest2))
  | _ => if ip.1 = ([] : List Char) then none
         else some (natOfDigits ip.1, 0, ip.2)

/-- Parse an optional exponent part `([eE] [+-]? digits)?`; returns its
signed value and the unconsumed rest. -/
def parseExpPart (cs : List Char) : Option (ℤ × List Char) :=
  match cs with
  | c :: rest =>
    if c = 'e' ∨ c = 'E' then
      let sp := match rest with
        | '+' :: r => (false, r)
        | '-' :: r => (true, r)
        | _ => (false, rest)
      match readDigitGroup sp.2 with
      | some (ds, r) =>
        some ((if sp.1 then -(natOfDigits ds : ℤ) else (natOfDigits ds : ℤ)), r)
      | none => none
    else some (0, c :: rest)
  | [] => some (0, [])

/-- Parse an unsigned decimal float literal, requiring the whole input to be
consumed; the value is exact (`m * 10 ^ (e - fracLen)`). -/
def parseNumber (cs : List Char) : Option ℚ :=
  match parseMantissa cs with
  | none => none
  | some (m, k, rest) =>
    match parseExpPart rest with
    | none => none
    | some (e, rest2) =>
      if rest2 = ([] : List Char) then
        some (qScale10 m (e - (k : ℤ)))
      else none

/-- CPython `float(s)` on its ASCII grammar: optional surrounding
whitespace, optional sign, then `inf`/`infinity`/`nan` (case-insensitive)
or a decimal literal; `none` models the `ValueError` raised otherwise.
Finite values are exact rationals (no binary rounding). -/
def parseFloat (s : String) : Option PyFloat :=
  let cs := pyStripChars s.data
  match cs with
  | [] => none
  | _ =>
    let sp := match cs with
      | '+' :: r => (false, r)
      | '-' :: r => (true, r)
      | _ => (false, cs)
    let low := sp.2.map Char.toLower
    if low = "inf".data ∨ low = "infinity".data then
      some (if sp.1 then PyFloat.negInf else PyFloat.posInf)
    else if low = "nan".data then some PyFloat.nan
    else
      match parseNumber sp.2 with
      | some q => some (PyFloat.finite (if sp.1 then qNeg q else q))
      | none => none

example : parseFloat "10.50" = some (.finite (mkRat 21 2)) := by decide
example : parseFloat "-5" = some (.finite (-5)) := by decide
example : parseFloat "abc" = none := by decide
example : parseFloat "nan" = some .nan := by decide
example : parseFloat "INF" = some .posInf := by decide
example : parseFloat "-Infinity" = some .negInf := by decide
example : parseFloat "1_0.2_5e1" = some (.finite (mkRat 205 2)) := by decide
example : parseFloat "1_" = none := by decide
example : parseFloat "." = none := by decide
example : parseFloat " 2.5 " = some (.finite (mkRat 5 2)) := by decide
example : parseFloat "1e-2" = some (.finite (mkRat 1 100)) := by decide
example : parseFloat "5." = some (.finite 5) := by decide
example : parseFloat ".5" = some (.finite (mkRat 1 2)) := by decide
example : parseFloat "1e" = none := by decide
example : format2Rat (mkRat 21 2) = "10.50" := by decide
example : format2Rat 5 = "5.00" := by decide
example : format2Rat (-(mkRat 1 1000)) = "-0.00" := by decide
example : format2Rat (mkRat 1 8) = "0.12" := by decide
example : pyFormat2 (PyFloat.add (.finite 0) .nan) = "nan" := by decide

/-- One history entry, as built in `BudgetBot.add_transaction`:
`{"date": now, "amount": amount, "comment": comment or "Manual Entry"}`. -/
structure Transaction where
  date : String
  amount : PyFloat
  comment : String
deriving DecidableEq, Repr

/-- The bot state dictionary (`self.state`): `balance`, `weekly_amount`,
`last_weekly_update` (a `%Y-%m-%d` date, modelled as a day number) and the
bounded `history` list. -/
structure LedgerState where
  balance : PyFloat
  weekly_amount : PyFloat
  last_weekly_update : ℤ
  history : List Transaction
deriving DecidableEq, Repr

/-- `BudgetBot.add_transaction(amount, comment)`: add `amount` to the
balance, append a history entry stamped `now` (an empty comment falls back
to `"Manual Entry"`), keep only the last 10 entries (`history[-10:]`),
persist, and return the new balance. -/
def add_transaction (st : LedgerState) (amount : PyFloat) (comment : String)
    (now : String) : LedgerState × PyFloat :=
  let newBalance := st.balance.add amount
  let h := st.history ++
    [⟨now, amount, if comment = "" then "Manual Entry" else comment⟩]
  let st2 : LedgerState :=
    { balance := newBalance
      weekly_amount := st.weekly_amount
      last_weekly_update := st.last_weekly_update
      history := h.drop (h.length - 10) }
  (st2, newBalance)

/-- The static `/usage` and `/help` reply. -/
def usageText : String :=
  "📖 *Budget Bot Usage*\n" ++
  "• /balance - Show current balance\n" ++
  "• /add [amount] [reason] - Add funds (e.g., `/add 10.50 birthday`)\n" ++
  "• /sub [amount] [reason] - Withdraw (e.g., `/sub 5 coffee`)\n" ++
  "• /history - Show last 10 transactions\n" ++
  "• /set [amount] - Change weekly allowance\n" ++
  "• /usage - Show this menu"

/-- The `/balance` reply. -/
def balanceReply (st : LedgerState) : String :=
  "💰 Balance: £" ++ pyFormat2 st.balance

/-- One line of the `/history` reply. -/
def histLine (t : Transaction) : String :=
  "• " ++ t.date ++ ": £" ++ pyFormat2 t.amount ++ " (" ++ t.comment ++ ")"

/-- The `/history` reply. -/
def historyReply (st : LedgerState) : String :=
  if st.history = [] then "📜 No transactions yet."
  else "📜 Recent History:\n" ++ pyJoin "\n" (st.history.map histLine)

/-- The reply to `/add`, `/sub` and `/withdraw` when the amount token is not
a number (the inner `except ValueError` branch). -/
def invalidAmountReply : String := "⚠️ Invalid amount. Use: /add 5.00 chocolate"

/-- A single-quote character (written via its code point so the file stays
free of bare apostrophes). -/
def quoteCh : String := String.singleton (Char.ofNat 39)

/-- The message of the `ValueError` CPython raises for `float(tok)` on a
non-numeric token, as caught by the outer generic handler:
`could not convert string to float: 'tok'`. -/
def floatValueErrorText (tok : String) : String :=
  "could not convert string to float: " ++ quoteCh ++ tok ++ quoteCh

/-- The generic `except Exception` reply of `handle_command`. -/
def genericErrorReply (msg : String) : String := "⚠️ Error: " ++ msg

/-- The `/add`, `/sub`, `/withdraw` branch of `handle_command` (the body of
its inner `try`): parse the amount, negate it for the subtracting commands,
apply the transaction and confirm; a `ValueError` yields the
invalid-amount reply. -/
def addSubCmd (now : String) (st : LedgerState) (isSubtract : Bool)
    (arg : String) (rest : List String) : LedgerState × Option String :=
  match parseFloat arg with
  | none => (st, some invalidAmountReply)
  | some amt0 =>
    let comment := pyJoin " " rest
    let p := if isSubtract then (amt0.neg, "Subtracted") else (amt0, "Added")
    let r := add_transaction st p.1 comment now
    (r.1, some ("✅ " ++ p.2 ++ " £" ++ pyFormat2 p.1.pyAbs ++
      ". New Balance: £" ++ pyFormat2 r.1.balance))

/-- The `/set` branch of `handle_command`: `float(parts[1])` is not guarded
by the inner `try`, so an unparseable token raises `ValueError` into the
outer `except Exception`, which replies with the exception text. -/
def setCmd (st : LedgerState) (arg : String) : LedgerState × Option String :=
  match parseFloat arg with
  | none => (st, some (genericErrorReply (floatValueErrorText arg)))
  | some v =>
    ({ st with weekly_amount := v },
     some ("⚙️ Weekly amount set to £" ++ pyFormat2 v))

/-- `BudgetBot.handle_command` on the already-tokenised command line:
the `if/elif` chain on `parts[0].lower()`, falling through to `return None`
for unrecognised commands and for argument-taking commands given without an
argument (`len(parts) > 1` fails). -/
def handleParts (now : String) (st : LedgerState) (parts : List String) :
    LedgerState × Option String :=
  match parts with
  | [] => (st, none)
  | p0 :: restParts =>
    let cmd := lowerAscii p0
    if cmd = "/usage" ∨ cmd = "/help" then (st, some usageText)
    else if cmd = "/balance" then (st, some (balanceReply st))
    else if cmd = "/history" then (st, some (historyReply st))
    else
      match restParts with
      | arg :: rest2 =>
        if cmd = "/add" ∨ cmd = "/sub" ∨ cmd = "/withdraw" then
          addSubCmd now st (cmd = "/sub" ∨ cmd = "/withdraw") arg rest2
        else if cmd = "/set" then setCmd st arg
        else (st, none)
      | [] => (st, none)

/-- `BudgetBot.handle_command(text)`: tokenise with `text.split()` and
dispatch.  Returns the (possibly mutated) state and the optional reply. -/
def handle_command (now : String) (st : LedgerState) (text : String) :
    LedgerState × Option String :=
  handleParts now st (pySplit text)

/-- One pass of the body of `weekly_task`: compare "now" with the stored
`last_weekly_update` (dates as day numbers, so `(now - last_date).days`
becomes integer subtraction); if at least 7 days have elapsed, apply one
transaction of `weeks * weekly_amount` (`weeks = days // 7`, floor division)
and advance `last_weekly_update` by `timedelta(weeks=weeks)`. -/
def weekly_task_step (nowDay : ℤ) (nowStamp : String) (st : LedgerState) :
    LedgerState :=
  let days := nowDay - st.last_weekly_update
  if 7 ≤ days then
    let weeks := Int.fdiv days 7
    let total := PyFloat.mul (.finite (weeks : ℚ)) st.weekly_amount
    let st2 := (add_transaction st total
      ("Auto-allowance (" ++ toString weeks ++ " wks)") nowStamp).1
    { st2 with last_weekly_update := st.last_weekly_update + weeks * 7 }
  else st

/-- The default state `load_state` builds when no usable prior state exists
(`today` is `datetime.now()` as a day number). -/
def defaultState (today : ℤ) : LedgerState :=
  { balance := .finite 0
    weekly_amount := .finite 1
    last_weekly_update := today
    history := [] }

/-- A JSON value, the codomain of `json.load`. -/
inductive Json where
  | null : Json
  | jbool : Bool → Json
  | jnum : ℚ → Json
  | jstr : String → Json
  | jarr : List Json → Json
  | jobj : List (String × Json) → Json

/-- What reading and JSON-decoding the state file can yield, as
`load_state` observes it: an `OSError` (missing/unreadable file), a
`ValueError` (content that is not valid JSON), or a decoded JSON value. -/
inductive LoadOutcome where
  | osError : LoadOutcome
  | valueError : LoadOutcome
  | ok : Json → LoadOutcome

/-- The default state document, as a JSON value (`todayStr` is
`datetime.now().strftime("%Y-%m-%d")`). -/
def defaultStateJson (todayStr : String) : Json :=
  .jobj [("balance", .jnum 0), ("weekly_amount", .jnum 1),
         ("last_weekly_update", .jstr todayStr), ("history", .jarr [])]

/-- `BudgetBot.load_state`: return `json.load`'s result unchanged, and fall
back to the default document only when `open`/`json.load` raised `OSError`
or `ValueError`. -/
def load_state (todayStr : String) (r : LoadOutcome) : Json :=
  match r with
  | .ok v => v
  | .osError => defaultStateJson todayStr
  | .valueError => defaultStateJson todayStr

theorem qAdd_eq (a b : ℚ) : qAdd a b = a + b := (Rat.add_def' a b).symm

theorem qMul_eq (a b : ℚ) : qMul a b = a * b := by
  rw [qMul, Rat.mul_def, Rat.normalize_eq_mkRat]

theorem qNeg_eq (a : ℚ) : qNeg a = -a := by
  rw [qNeg, ← Rat.neg_mkRat, Rat.mkRat_self]

theorem pyAdd_assoc (a b c : PyFloat) :
    (a.add b).add c = a.add (b.add c) := by
  cases a <;> cases b <;> cases c <;> simp [PyFloat.add, qAdd_eq, add_assoc]

theorem pyAdd_zero (a : PyFloat) : a.add (.finite 0) = a := by
  cases a <;> simp [PyFloat.add, qAdd_eq]

theorem zero_pyAdd (a : PyFloat) : (PyFloat.finite 0).add a = a := by
  cases a <;> simp [PyFloat.add, qAdd_eq]

theorem pyAdd_nan (a : PyFloat) : a.add .nan = .nan := by
  cases a <;> rfl

/-- Fold `add_transaction` over a whole list of `(amount, comment, now)`
requests, left to right, starting from `st`. -/
def applyAll (st : LedgerState) (txs : List (PyFloat × String × String)) :
    LedgerState :=
  txs.foldl (fun s t => (add_transaction s t.1 t.2.1 t.2.2).1) st

/-- The Python-float sum of a list of amounts (left fold of `+` from `0.0`,
the order in which the balance accumulates them). -/
def pySum (l : List PyFloat) : PyFloat := l.foldl PyFloat.add (.finite 0)

theorem pyAdd_foldl (l : List PyFloat) (x y : PyFloat) :
    x.add (l.foldl PyFloat.add y) = l.foldl PyFloat.add (x.add y) := by
  induction l generalizing y with
  | nil => rfl
  | cons a l ih => simp only [List.foldl_cons, ih, pyAdd_assoc]

theorem applyAll_balance (st : LedgerState)
    (txs : List (PyFloat × String × String)) :
    (applyAll st txs).balance = st.balance.add (pySum (txs.map Prod.fst)) := by
  induction txs generalizing st with
  | nil => simp [applyAll, pySum, pyAdd_zero]
  | cons t ts ih =>
    have h1 : applyAll st (t :: ts) =
        applyAll (add_transaction st t.1 t.2.1 t.2.2).1 ts := rfl
    have h2 : (add_transaction st t.1 t.2.1 t.2.2).1.balance =
        st.balance.add t.1 := rfl
    rw [h1, ih, h2]
    simp only [List.map_cons, pySum, List.foldl_cons, zero_pyAdd]
    rw [pyAdd_foldl, pyAdd_foldl, pyAdd_zero]

/-- C1. Starting from any state, applying any sequence of transactions
leaves the balance equal to the starting balance plus the (Python-float)
sum of all applied amounts — the balance is the durable accumulator and is
unaffected by history truncation — and each `add_transaction` adds exactly
its amount argument to the balance and returns the updated balance. -/
theorem balance_additive_correct (st : LedgerState)
    (txs : List (PyFloat × String × String)) :
    (applyAll st txs).balance = st.balance.add (pySum (txs.map Prod.fst))
    ∧ ∀ a c n, (add_transaction st a c n).2 = (add_transaction st a c n).1.balance
      ∧ (add_transaction st a c n).1.balance = st.balance.add a :=
  ⟨applyAll_balance st txs, fun _ _ _ => ⟨rfl, rfl⟩⟩

theorem add_transaction_hist_le (st : LedgerState) (a : PyFloat)
    (c n : String) : (add_transaction st a c n).1.history.length ≤ 10 := by
  show ((st.history ++ [(⟨n, a, if c = "" then "Manual Entry" else c⟩ : Transaction)]).drop
    ((st.history ++ [(⟨n, a, if c = "" then "Manual Entry" else c⟩ : Transaction)]).length - 10)).length ≤ 10
  rw [List.length_drop]
  omega

theorem handleParts_hist_le (now : String) (st : LedgerState)
    (parts : List String) (h : st.history.length ≤ 10) :
    (handleParts now st parts).1.history.length ≤ 10 := by
  unfold handleParts
  cases parts with
  | nil => exact h
  | cons p0 restParts =>
    dsimp only
    split_ifs
    · exact h
    · exact h
    · exact h
    · cases restParts with
      | nil => exact h
      | cons arg rest2 =>
        dsimp only
        unfold addSubCmd
        cases parseFloat arg with
        | none => exact h
        | some a0 => exact add_transaction_hist_le _ _ _ _
    · cases restParts with
      | nil => exact h
      | cons arg rest2 =>
        dsimp only
        unfold setCmd
        cases parseFloat arg with
        | none => exact h
        | some v => exact h
    · cases restParts with
      | nil => exact h
      | cons arg rest2 => exact h

/-- C2. The history is capped at 10 entries: `add_transaction` always
leaves at most 10 entries; applied to a full (10-entry) history it drops
exactly the oldest entry and appends the new one last, keeping the
relative order of the survivors; and `handle_command` preserves the
10-entry bound from any state satisfying it. -/
theorem history_capped (st : LedgerState) (a : PyFloat) (c n : String) :
    (add_transaction st a c n).1.history.length ≤ 10
    ∧ (st.history.length = 10 →
        (add_transaction st a c n).1.history
          = st.history.tail ++ [⟨n, a, if c = "" then "Manual Entry" else c⟩])
    ∧ (∀ now text, st.history.length ≤ 10 →
        (handle_command now st text).1.history.length ≤ 10) := by
  refine ⟨add_transaction_hist_le st a c n, ?_, ?_⟩
  · intro h10
    show (st.history ++ [(⟨n, a, if c = "" then "Manual Entry" else c⟩ : Transaction)]).drop
      ((st.history ++ [(⟨n, a, if c = "" then "Manual Entry" else c⟩ : Transaction)]).length - 10)
      = st.history.tail ++ [(⟨n, a, if c = "" then "Manual Entry" else c⟩ : Transaction)]
    rw [List.length_append, h10]
    norm_num
    rw [← List.drop_one, List.drop_append_of_le_length (by omega), List.drop_one]
  · intro now text h10
    exact handleParts_hist_le now st (pySplit text) h10

/-- Ten placeholder transactions, a concrete full history. -/
def fullState : LedgerState :=
  { balance := .finite 0
    weekly_amount := .finite 1
    last_weekly_update := 0
    history := List.replicate 10 ⟨"d", .finite 1, "c"⟩ }

theorem history_capped_witness :
    (add_transaction fullState (.finite 2) "x" "t").1.history.length ≤ 10
    ∧ (add_transaction fullState (.finite 2) "x" "t").1.history
        = fullState.history.tail ++ [⟨"t", .finite 2, "x"⟩]
    ∧ (handle_command "t" fullState "/add 2 x").1.history.length ≤ 10 := by
  refine ⟨(history_capped fullState (.finite 2) "x" "t").1, ?_, ?_⟩
  · have h := (history_capped fullState (.finite 2) "x" "t").2.1 (by decide)
    simpa using h
  · exact (history_capped fullState (.finite 2) "x" "t").2.2 "t" "/add 2 x" (by decide)

theorem auto_comment_ne_empty (x : String) :
    ¬("Auto-allowance (" ++ x ++ " wks)" = "") := by
  intro e
  have h2 : ("Auto-allowance (" ++ x ++ " wks)").length = 0 := by
    rw [e]
    rfl
  rw [String.length_append, String.length_append] at h2
  have h3 : ("Auto-allowance (" : String).length = 16 := rfl
  omega

theorem weekly_task_step_noop (nowDay : ℤ) (ns : String) (st : LedgerState)
    (h : nowDay - st.last_weekly_update < 7) :
    weekly_task_step nowDay ns st = st := by
  simp only [weekly_task_step]
  rw [if_neg (by omega)]

theorem weekly_task_step_last (nowDay : ℤ) (ns : String) (st : LedgerState)
    (h : 7 ≤ nowDay - st.last_weekly_update) :
    (weekly_task_step nowDay ns st).last_weekly_update
      = st.last_weekly_update + (nowDay - st.last_weekly_update).fdiv 7 * 7 := by
  simp only [weekly_task_step]
  rw [if_pos h]

/-- C3. Whenever at least 7 days have elapsed since `last_weekly_update`,
one pass of the weekly task applies exactly one transaction of
`(days // 7) * weekly_amount` (with the week-count comment) and advances
`last_weekly_update` by exactly `(days // 7) * 7` days, preserving the
fractional-week remainder. -/
theorem weekly_accrual_exact (st : LedgerState) (nowDay : ℤ) (ns : String)
    (h : 7 ≤ nowDay - st.last_weekly_update) :
    (weekly_task_step nowDay ns st).last_weekly_update
        = st.last_weekly_update + (nowDay - st.last_weekly_update).fdiv 7 * 7
    ∧ (weekly_task_step nowDay ns st).balance
        = st.balance.add (PyFloat.mul
            (.finite (((nowDay - st.last_weekly_update).fdiv 7 : ℤ) : ℚ))
            st.weekly_amount)
    ∧ (weekly_task_step nowDay ns st).history
        = (st.history ++ [(⟨ns,
            PyFloat.mul (.finite (((nowDay - st.last_weekly_update).fdiv 7 : ℤ) : ℚ))
              st.weekly_amount,
            "Auto-allowance (" ++ toString ((nowDay - st.last_weekly_update).fdiv 7)
              ++ " wks)"⟩ : Transaction)]).drop
            (st.history.length + 1 - 10) := by
  have hne := auto_comment_ne_empty
    (toString ((nowDay - st.last_weekly_update).fdiv 7))
  simp only [weekly_task_step, add_transaction]
  rw [if_pos h, if_neg hne]
  refine ⟨rfl, rfl, ?_⟩
  simp [List.length_append]

/-- The concrete accrual catch-up scenario: `last_weekly_update` 17 days
in the past, weekly amount 5. -/
def state17 : LedgerState :=
  { balance := .finite 0
    weekly_amount := .finite 5
    last_weekly_update := 0
    history := [] }

theorem weekly_accrual_exact_witness :
    (weekly_task_step 17 "t" state17).last_weekly_update = 14
    ∧ (weekly_task_step 17 "t" state17).balance = .finite 10
    ∧ (weekly_task_step 17 "t" state17).history
        = [(⟨"t", .finite 10, "Auto-allowance (2 wks)"⟩ : Transaction)] := by
  obtain ⟨h1, h2, h3⟩ := weekly_accrual_exact state17 17 "t" (by decide)
  refine ⟨?_, ?_, ?_⟩
  · rw [h1]; decide
  · rw [h2]; decide
  · rw [h3]; decide

/-- C4. The accrual check is idempotent under a fixed clock: with fewer
than 7 elapsed days it leaves the state untouched (no transaction), and a
second invocation at the same "now" never accrues again. -/
theorem weekly_accrual_idempotent (st : LedgerState) (nowDay : ℤ)
    (ns : String) :
    (nowDay - st.last_weekly_update < 7 → weekly_task_step nowDay ns st = st)
    ∧ weekly_task_step nowDay ns (weekly_task_step nowDay ns st)
        = weekly_task_step nowDay ns st := by
  refine ⟨weekly_task_step_noop nowDay ns st, ?_⟩
  by_cases h : 7 ≤ nowDay - st.last_weekly_update
  · have h2 : nowDay - (weekly_task_step nowDay ns st).last_weekly_update < 7 := by
      rw [weekly_task_step_last nowDay ns st h]
      have hm := Int.fdiv_add_fmod (nowDay - st.last_weekly_update) 7
      have hl := Int.fmod_lt_of_pos (nowDay - st.last_weekly_update)
        (show (0:ℤ) < 7 by norm_num)
      have hnn := Int.fmod_nonneg (a := nowDay - st.last_weekly_update)
        (b := 7) (by omega) (by norm_num)
      omega
    exact weekly_task_step_noop nowDay ns _ h2
  · have hid := weekly_task_step_noop nowDay ns st (by omega)
    rw [hid]
    exact hid

theorem weekly_accrual_idempotent_witness :
    weekly_task_step 3 "t" state17 = state17
    ∧ weekly_task_step 3 "t" (weekly_task_step 3 "t" state17)
        = weekly_task_step 3 "t" state17 := by
  obtain ⟨h1, h2⟩ := weekly_accrual_idempotent state17 3 "t"
  exact ⟨h1 (by decide), h2⟩

/-- Does `needle` occur as a substring of `hay`? (kernel-evaluable) -/
def strContains (hay needle : String) : Bool :=
  hay.data.tails.any (fun t => needle.data.isPrefixOf t)

/-- C5 (amended). For `/add`, `/sub` and `/withdraw` an unparseable amount
token yields the invalid-amount reply naming the expected syntax and no
state mutation; for `/set` the unparseable token instead surfaces as the
generic exception reply (the `ValueError` text), also without mutation. -/
theorem invalid_amount_no_mutation (st : LedgerState) (now tok : String)
    (rest : List String) (h : parseFloat tok = none) :
    handleParts now st ("/add" :: tok :: rest) = (st, some invalidAmountReply)
    ∧ handleParts now st ("/sub" :: tok :: rest) = (st, some invalidAmountReply)
    ∧ handleParts now st ("/withdraw" :: tok :: rest)
        = (st, some invalidAmountReply)
    ∧ handleParts now st ("/set" :: tok :: rest)
        = (st, some (genericErrorReply (floatValueErrorText tok))) := by
  refine ⟨?_, ?_, ?_, ?_⟩
  · show addSubCmd now st false tok rest = (st, some invalidAmountReply)
    simp [addSubCmd, h]
  · show addSubCmd now st true tok rest = (st, some invalidAmountReply)
    simp [addSubCmd, h]
  · show addSubCmd now st true tok rest = (st, some invalidAmountReply)
    simp [addSubCmd, h]
  · show setCmd st tok = (st, some (genericErrorReply (floatValueErrorText tok)))
    simp [setCmd, h]

theorem invalid_amount_no_mutation_witness :
    handleParts "t" (defaultState 0) ("/add" :: "abc" :: [])
        = (defaultState 0, some invalidAmountReply)
    ∧ handleParts "t" (defaultState 0) ("/sub" :: "abc" :: [])
        = (defaultState 0, some invalidAmountReply)
    ∧ handleParts "t" (defaultState 0) ("/withdraw" :: "abc" :: [])
        = (defaultState 0, some invalidAmountReply)
    ∧ handleParts "t" (defaultState 0) ("/set" :: "abc" :: [])
        = (defaultState 0, some (genericErrorReply (floatValueErrorText "abc"))) :=
  invalid_amount_no_mutation (defaultState 0) "t" "abc" [] (by decide)

/-- C5 (counterexample). `/set abc` does reply, but with the generic
exception text `⚠️ Error: could not convert string to float: 'abc'`; this
reply is not the invalid-amount reply and does not name the `/set` syntax
(the command name does not even occur in it), refuting the claim that
every amount-carrying command answers bad amounts with a reply naming the
expected syntax. -/
theorem set_invalid_token_generic_reply :
    handle_command "t" (defaultState 0) "/set abc"
      = (defaultState 0, some (genericErrorReply (floatValueErrorText "abc")))
    ∧ genericErrorReply (floatValueErrorText "abc") ≠ invalidAmountReply
    ∧ strContains (genericErrorReply (floatValueErrorText "abc")) "/set" = false := by
  refine ⟨by decide, by decide, by decide⟩

/-- C6 (amended). `load_state` is total (never raises): an `OSError`
(missing/unreadable file) or a `ValueError` (not valid JSON) yields the
default document (balance 0, weekly amount 1, today, empty history), while
any successfully decoded JSON value — even one that is not a well-formed
state document — is returned unchanged. -/
theorem load_state_total_defaults (todayStr : String) (v : Json) :
    load_state todayStr .osError = defaultStateJson todayStr
    ∧ load_state todayStr .valueError = defaultStateJson todayStr
    ∧ load_state todayStr (.ok v) = v :=
  ⟨rfl, rfl, rfl⟩

/-- C6 (counterexample). Content that is valid JSON but not a state
document — here the empty object — is returned as-is by `load_state`,
not replaced by the default `LedgerState` document. -/
theorem load_state_wrong_shape_returned :
    load_state "2024-01-01" (.ok (.jobj [])) = Json.jobj []
    ∧ Json.jobj [] ≠ defaultStateJson "2024-01-01" := by
  refine ⟨rfl, ?_⟩
  intro e
  simp [defaultStateJson] at e

/-- C7. Argument-taking commands given without their amount argument
(`/add`, `/sub`, `/withdraw`, `/set` alone) fall through the `len(parts) >
1` guards and produce no reply and no mutation — exactly the behaviour of
an unrecognised command. -/
theorem missing_args_silent (st : LedgerState) (now : String) :
    handle_command now st "/add" = (st, none)
    ∧ handle_command now st "/sub" = (st, none)
    ∧ handle_command now st "/withdraw" = (st, none)
    ∧ handle_command now st "/set" = (st, none)
    ∧ handle_command now st "/unknowncmd" = (st, none) :=
  ⟨rfl, rfl, rfl, rfl, rfl⟩

/-- C8 (counterexample). `/set -5` parses and stores `-5.0` unchecked:
the fresh default state has a non-negative weekly amount, yet one `/set`
brings it below zero, refuting non-negativity of `weeklyAmount` in
reachable states. -/
theorem set_negative_weekly_counterexample :
    (defaultState 0).weekly_amount = PyFloat.finite 1
    ∧ (handle_command "t" (defaultState 0) "/set -5").1.weekly_amount
        = PyFloat.finite (-5)
    ∧ ¬ ((0:ℚ) ≤ (-5:ℚ)) := by
  refine ⟨rfl, by decide, by norm_num⟩

/-- C8 (amended). `/set` stores exactly the parsed value with no sign
check: whatever float the token parses to — negative included — becomes
the new `weekly_amount`. -/
theorem set_weekly_exact_value (st : LedgerState) (now tok : String)
    (rest : List String) (v : PyFloat) (h : parseFloat tok = some v) :
    handleParts now st ("/set" :: tok :: rest)
      = ({ st with weekly_amount := v },
         some ("⚙️ Weekly amount set to £" ++ pyFormat2 v)) := by
  show setCmd st tok = _
  simp [setCmd, h]

theorem set_weekly_exact_value_witness :
    handleParts "t" (defaultState 0) ("/set" :: "-5" :: [])
      = ({ defaultState 0 with weekly_amount := .finite (-5) },
         some ("⚙️ Weekly amount set to £" ++ pyFormat2 (.finite (-5)))) :=
  set_weekly_exact_value (defaultState 0) "t" "-5" [] (.finite (-5)) (by decide)

/-- C9. `/balance` replies with the balance formatted to two decimal
places behind the currency symbol and returns the state unchanged. -/
theorem balance_readonly (st : LedgerState) (now : String) :
    handle_command now st "/balance"
      = (st, some ("💰 Balance: £" ++ pyFormat2 st.balance)) :=
  rfl

theorem getLast?_drop_append (l : List Transaction) (x : Transaction)
    (k : ℕ) (hk : k ≤ l.length) :
    ((l ++ [x]).drop k).getLast? = some x := by
  rw [List.drop_append_of_le_length hk]
  exact List.getLast?_concat _

/-- C10. The amount validation is exactly Python `float()`: `nan` and
`inf` are accepted, so `/add nan` applies a transaction whose stored
amount is `nan`, drives the balance to `nan`, and answers with a
confirmation reply — not the invalid-amount error. -/
theorem add_accepts_nonfinite (st : LedgerState) (now : String) :
    parseFloat "nan" = some PyFloat.nan
    ∧ parseFloat "inf" = some PyFloat.posInf
    ∧ (handle_command now st "/add nan").1.balance = PyFloat.nan
    ∧ (handle_command now st "/add nan").1.history.getLast?
        = some (⟨now, PyFloat.nan, "Manual Entry"⟩ : Transaction)
    ∧ (handle_command now st "/add nan").2
        = some "✅ Added £nan. New Balance: £nan"
    ∧ some "✅ Added £nan. New Balance: £nan" ≠ some invalidAmountReply := by
  have h0 : handle_command now st "/add nan"
      = ((add_transaction st PyFloat.nan "" now).1,
         some ("✅ " ++ "Added" ++ " £" ++ pyFormat2 (PyFloat.pyAbs PyFloat.nan) ++
           ". New Balance: £" ++
           pyFormat2 (add_transaction st PyFloat.nan "" now).1.balance)) := rfl
  have hbal : (add_transaction st PyFloat.nan "" now).1.balance = PyFloat.nan :=
    pyAdd_nan st.balance
  refine ⟨by decide, by decide, ?_, ?_, ?_, by decide⟩
  · rw [h0]
    exact hbal
  · rw [h0]
    exact getLast?_drop_append st.history _ _
      (by simp [List.length_append])
  · rw [h0, hbal]
    rfl
